import Mathlib

/-!
Shallow embedding of the feature-engineering pipeline in
`src/data/process.py` of the match-predictor repository.

The pipeline reads raw match rows, discards rows with no score, splits the
score text on the en-dash character, converts the two tokens to numbers
(raising on a non-numeric token, as `pd.to_numeric` does), derives the
result column, expands each match into two team-perspective records,
computes per-team rolling means with `rolling(window=5, closed='left')`
(whose `min_periods` defaults to the window size), joins the rolling
features back on the `(date, team)` key and finally drops every row with a
missing value in any column.

Dates are modelled as already-parsed ordinals (`Nat`); score cells as the
list of characters of the cell; missing cells as `none`. Floating point
means are modelled as rational numbers. The unstable pandas quicksort is
modelled as a stable insertion sort, the tie policy the specification
states for same-date records.
-/

/-- A raw CSV row: `date` (already parsed to an ordinal), the two team
identifiers, the score cell (`none` for an unplayed fixture, otherwise the
list of characters of the cell) and the extra passthrough columns (`none`
modelling a missing cell). -/
structure RawRow where
  date : Nat
  home_team : String
  away_team : String
  score : Option (List Char)
  extra : List (Option Int)
deriving DecidableEq

/-- A row after score extraction: the raw row plus `home_goals`,
`away_goals` and `result` columns (`none` models NaN). -/
structure ScoredRow where
  raw : RawRow
  home_goals : Option Nat
  away_goals : Option Nat
  result : Option Char
deriving DecidableEq

/-- One row of `team_stats_df`: a match seen from one team's perspective. -/
structure TeamRec where
  date : Nat
  team : String
  goals_scored : Option Nat
  goals_conceded : Option Nat
  result : Option Char
  location : Char
  points : Nat
deriving DecidableEq

/-- A `team_stats_df` row together with the three rolling-mean columns
added by `calculate_rolling_features` (`none` models NaN). -/
structure RolledRec where
  trec : TeamRec
  avg_goals_scored : Option ℚ
  avg_goals_conceded : Option ℚ
  avg_points : Option ℚ
deriving DecidableEq

/-- One row of `final_df`: the scored row plus the six joined rolling
feature columns. -/
structure FinalRow where
  row : ScoredRow
  home_avg_goals_scored : Option ℚ
  home_avg_goals_conceded : Option ℚ
  home_avg_points : Option ℚ
  away_avg_goals_scored : Option ℚ
  away_avg_goals_conceded : Option ℚ
  away_avg_points : Option ℚ
deriving DecidableEq

/-- The fixed score separator `'–'` (en dash) used by
`df['score'].str.split('–', expand=True)`. -/
def dashChar : Char := '–'

/-- Value of a decimal digit character, `none` otherwise. -/
def charDigit? (c : Char) : Option Nat :=
  if c.isDigit then some (c.toNat - 48) else none

/-- Numeric parse of one token, as `pd.to_numeric` accepts a goal count:
a non-empty string of decimal digits. Empty or non-numeric tokens give
`none`. -/
def tokToNat? (t : List Char) : Option Nat :=
  match t with
  | [] => none
  | _ =>
    t.foldl
      (fun acc c =>
        match acc, charDigit? c with
        | some n, some d => some (n * 10 + d)
        | _, _ => none)
      (some 0)

/-- Split a character list on a separator character, mirroring
`str.split(sep)`: always returns at least one (possibly empty) token. -/
def splitOnChar (sep : Char) : List Char → List (List Char)
  | [] => [[]]
  | c :: cs =>
    let rest := splitOnChar sep cs
    if c = sep then [] :: rest
    else
      match rest with
      | [] => [[c]]
      | t :: ts => (c :: t) :: ts

/-- Conversion of one split cell by `pd.to_numeric`: an absent cell (a row
whose score had fewer tokens than another row) stays NaN, a numeric token
is converted, and a non-numeric token raises `ValueError`, aborting the
run. -/
def toNumericTok (t : Option (List Char)) : Except Unit (Option Nat) :=
  match t with
  | none => Except.ok none
  | some tok =>
    match tokToNat? tok with
    | some n => Except.ok (some n)
    | none => Except.error ()

/-- The three `df.loc` assignments deriving the result column: `'H'` when
`home_goals > away_goals`, `'D'` on equality, `'A'` when smaller; when
either goal count is NaN every comparison is false and the column stays
NaN. -/
def deriveResult (hg ag : Option Nat) : Option Char :=
  match hg, ag with
  | some h, some a =>
    if a < h then some 'H' else if h = a then some 'D' else some 'A'
  | _, _ => none

/-- Score extraction for one (score-bearing) row: split the score cell on
the en dash, convert tokens 0 and 1 with `pd.to_numeric`, and derive the
result column. -/
def parseRow (r : RawRow) : Except Unit ScoredRow := do
  let ts := splitOnChar dashChar (r.score.getD [])
  let hg ← toNumericTok (ts.get? 0)
  let ag ← toNumericTok (ts.get? 1)
  Except.ok ⟨r, hg, ag, deriveResult hg ag⟩

/-- Section 1 of `process_data`: keep the rows whose score is not NaN
(`df[df['score'].notna()]`) and extract goals and result from each. -/
def cleanPhase (raws : List RawRow) : Except Unit (List ScoredRow) :=
  (raws.filter fun r => r.score.isSome).mapM parseRow

/-- The `np.select` computing the points column: 3 when the record's team
was home and the home side won, 3 when it was away and the away side won,
1 on a draw, default 0. -/
def selectPoints (loc : Char) (res : Option Char) : Nat :=
  if loc = 'H' ∧ res = some 'H' then 3
  else if loc = 'A' ∧ res = some 'A' then 3
  else if res = some 'D' then 1
  else 0

/-- The `home_df` row of a match: the home team's perspective. -/
def homeRec (m : ScoredRow) : TeamRec :=
  { date := m.raw.date
    team := m.raw.home_team
    goals_scored := m.home_goals
    goals_conceded := m.away_goals
    result := m.result
    location := 'H'
    points := selectPoints 'H' m.result }

/-- The `away_df` row of a match: the away team's perspective. -/
def awayRec (m : ScoredRow) : TeamRec :=
  { date := m.raw.date
    team := m.raw.away_team
    goals_scored := m.away_goals
    goals_conceded := m.home_goals
    result := m.result
    location := 'A'
    points := selectPoints 'A' m.result }

/-- Date order on team records, the key of every `sort_values('date')`. -/
def dateLE : TeamRec → TeamRec → Prop := fun a b => a.date ≤ b.date

instance : DecidableRel dateLE := fun a b =>
  inferInstanceAs (Decidable (a.date ≤ b.date))

instance : IsTotal TeamRec dateLE :=
  ⟨fun a b => Nat.le_total a.date b.date⟩

instance : IsTrans TeamRec dateLE :=
  ⟨fun _ _ _ h1 h2 => Nat.le_trans h1 h2⟩

/-- Chronological sort of team records. pandas' `sort_values` uses an
unstable quicksort; we model it as a stable sort, which is the tie policy
the surrounding design prescribes for same-date records. -/
def sortByDate (l : List TeamRec) : List TeamRec :=
  List.insertionSort dateLE l

/-- Section 2 of `process_data`: `pd.concat([home_df, away_df])` followed
by `sort_values('date')`, with the points column of each record. -/
def teamStats (scored : List ScoredRow) : List TeamRec :=
  sortByDate (scored.map homeRec ++ scored.map awayRec)

/-- Value of `rolling(window=N, closed='left').mean()` at row `i`
(0-indexed) of a column `vals` (`none` is NaN). The window covers rows
`max(0, i-N) .. i-1`; NaN cells do not count as observations, and the
result is NaN unless the window holds at least `min_periods = N`
observations (the pandas default for an integer window). -/
def rollingMeanAt (vals : List (Option ℚ)) (N i : Nat) : Option ℚ :=
  let win := (vals.take i).drop (i - N)
  let obs := win.filterMap id
  if N ≤ obs.length then some (obs.sum / (obs.length : ℚ)) else none

/-- Attach the three rolling columns to each record of a sorted group,
starting at row index `i`. -/
def rollFrom (gs gc pts : List (Option ℚ)) (N : Nat) :
    Nat → List TeamRec → List RolledRec
  | _, [] => []
  | i, r :: rs =>
    ⟨r, rollingMeanAt gs N i, rollingMeanAt gc N i, rollingMeanAt pts N i⟩ ::
      rollFrom gs gc pts N (i + 1) rs

/-- The `calculate_rolling_features` function: sort the team's records by
date, then compute the rolling means of `goals_scored`, `goals_conceded`
and `points` with `rolling(window=window_size, closed='left')`. -/
def calculate_rolling_features (window_size : Nat) (group : List TeamRec) :
    List RolledRec :=
  let s := sortByDate group
  rollFrom (s.map fun r => r.goals_scored.map fun n => (n : ℚ))
    (s.map fun r => r.goals_conceded.map fun n => (n : ℚ))
    (s.map fun r => (some (r.points : ℚ) : Option ℚ))
    window_size 0 s

/-- The distinct team keys of `groupby('team')`. -/
def uniqueTeams (recs : List TeamRec) : List String :=
  (recs.map fun r => r.team).dedup

/-- Section 3 of `process_data`: group `team_stats_df` by team and apply
`calculate_rolling_features` to each group. -/
def processedRecs (N : Nat) (scored : List ScoredRow) : List RolledRec :=
  (uniqueTeams (teamStats scored)).flatMap fun t =>
    calculate_rolling_features N
      ((teamStats scored).filter fun r => r.team == t)

/-- Key predicate of the first merge: `['date', 'home_team']` against
`['date', 'team']`. -/
def homeKeyB (m : ScoredRow) (r : RolledRec) : Bool :=
  (r.trec.date == m.raw.date) && (r.trec.team == m.raw.home_team)

/-- Key predicate of the second merge: `['date', 'away_team']` against
`['date', 'team']`. -/
def awayKeyB (m : ScoredRow) (r : RolledRec) : Bool :=
  (r.trec.date == m.raw.date) && (r.trec.team == m.raw.away_team)

/-- One row of the result of the two merges. -/
def mkFinal (m : ScoredRow) (hr ar : RolledRec) : FinalRow :=
  ⟨m, hr.avg_goals_scored, hr.avg_goals_conceded, hr.avg_points,
    ar.avg_goals_scored, ar.avg_goals_conceded, ar.avg_points⟩

/-- Section 4 of `process_data`: split the processed records into home and
away feature tables and inner-merge both back onto the match table on the
`(date, team)` keys; every key match contributes one output row. -/
def joinedRows (N : Nat) (scored : List ScoredRow) : List FinalRow :=
  let procd := processedRecs N scored
  let homeF := procd.filter fun r => r.trec.location == 'H'
  let awayF := procd.filter fun r => r.trec.location == 'A'
  scored.flatMap fun m =>
    (homeF.filter (homeKeyB m)).flatMap fun hr =>
      (awayF.filter (awayKeyB m)).map fun ar => mkFinal m hr ar

/-- Does a final row hold a NaN in any column `dropna` sees? -/
def hasNaN (f : FinalRow) : Bool :=
  f.row.raw.score.isNone || f.row.home_goals.isNone ||
    f.row.away_goals.isNone || f.row.result.isNone ||
    f.home_avg_goals_scored.isNone || f.home_avg_goals_conceded.isNone ||
    f.home_avg_points.isNone || f.away_avg_goals_scored.isNone ||
    f.away_avg_goals_conceded.isNone || f.away_avg_points.isNone ||
    f.row.raw.extra.any fun x => x.isNone

/-- The final `dropna()`: keep only rows with no missing value in any
column. -/
def dropna (l : List FinalRow) : List FinalRow :=
  l.filter fun f => !(hasNaN f)

/-- The whole `process_data` pipeline (window size fixed at 5, the
`calculate_rolling_features` default used by the `groupby(...).apply`).
An `Except.error` is a raised exception aborting the run. -/
def process_data (raws : List RawRow) : Except Unit (List FinalRow) :=
  (cleanPhase raws).map fun scored => dropna (joinedRows 5 scored)

/-- The 1-indexed look-behind window of positions `max(1, k-N) .. k-1` of
a list, i.e. the rows a `closed='left'` rolling window of size `N` sees at
position `k`. -/
def windowSlice {α : Type} (l : List α) (N k : Nat) : List α :=
  (l.take (k - 1)).drop (k - 1 - N)

/-- Arithmetic mean of a list of rationals. -/
def meanQ (l : List ℚ) : ℚ := l.sum / (l.length : ℚ)

/-- Does team `t` take part in match `m` (as home or away side)? -/
def involvesB (t : String) (m : ScoredRow) : Bool :=
  (m.raw.home_team == t) || (m.raw.away_team == t)

/-- The match `m` is the strictly first chronological match of team `t` in
`scored`: `t` plays in `m` and exactly one match of `t` has a date at most
`m`'s date (so no other match of `t`, in particular none on the same
day, precedes or ties it). -/
def strictFirstMatch (scored : List ScoredRow) (t : String) (m : ScoredRow) :
    Prop :=
  m ∈ scored ∧ involvesB t m ∧
    scored.countP
      (fun x => involvesB t x && decide (x.raw.date ≤ m.raw.date)) = 1

/-! Concrete inputs used by counterexamples and witnesses. -/

/-- A third team record on a later date, differing from `c1rec2`. -/
def c8rec : TeamRec := ⟨3, "A", some 9, some 9, some 'H', 'H', 3⟩

/-- Raw-row builder with no extra columns. -/
def mkRaw (d : Nat) (h a : String) (sc : Option (List Char)) : RawRow :=
  ⟨d, h, a, sc, []⟩

/-- A single team record: a 2–1 home win. -/
def c1rec1 : TeamRec := ⟨1, "A", some 2, some 1, some 'H', 'H', 3⟩

/-- A second team record, one day later: a goalless home draw. -/
def c1rec2 : TeamRec := ⟨2, "A", some 0, some 0, some 'D', 'H', 1⟩

/-- An input whose only row carries the unparsable score text `abc`. -/
def c2rows : List RawRow := [mkRaw 1 "A" "B" (some ['a', 'b', 'c'])]

/-- A raw row recording a 2–1 home win. -/
def c3raw : RawRow := mkRaw 1 "A" "B" (some ['2', '–', '1'])

/-- The scored row `process_data` derives from `c3raw`. -/
def c3scored : ScoredRow := ⟨c3raw, some 2, some 1, some 'H'⟩

/-- Six A-vs-B matches on six consecutive dates; every row has one extra
column, present in the first five rows and missing in the sixth. -/
def c4rows : List RawRow :=
  [ ⟨1, "A", "B", some ['2', '–', '1'], [some 0]⟩
  , ⟨2, "A", "B", some ['0', '–', '0'], [some 0]⟩
  , ⟨3, "A", "B", some ['1', '–', '3'], [some 0]⟩
  , ⟨4, "A", "B", some ['1', '–', '0'], [some 0]⟩
  , ⟨5, "A", "B", some ['2', '–', '2'], [some 0]⟩
  , ⟨6, "A", "B", some ['3', '–', '1'], [none]⟩
  ]

/-- The same six matches with the sixth row's extra cell present. -/
def c4rowsB : List RawRow :=
  [ ⟨1, "A", "B", some ['2', '–', '1'], [some 0]⟩
  , ⟨2, "A", "B", some ['0', '–', '0'], [some 0]⟩
  , ⟨3, "A", "B", some ['1', '–', '3'], [some 0]⟩
  , ⟨4, "A", "B", some ['1', '–', '0'], [some 0]⟩
  , ⟨5, "A", "B", some ['2', '–', '2'], [some 0]⟩
  , ⟨6, "A", "B", some ['3', '–', '1'], [some 0]⟩
  ]

/-- A 2–1 match used to instantiate score parsing. -/
def c5raw : RawRow := mkRaw 1 "A" "B" (some ['2', '–', '1'])

/-- A scored 2–1 home win. -/
def c6scored : ScoredRow := ⟨mkRaw 1 "A" "B" (some ['2', '–', '1']), some 2, some 1, some 'H'⟩

/-- Two raw rows: one played match and one unplayed fixture. -/
def c7raws : List RawRow :=
  [mkRaw 1 "A" "B" (some ['2', '–', '1']), mkRaw 2 "B" "A" none]

/-- The scored rows `cleanPhase` produces from `c7raws`. -/
def c7scored : List ScoredRow :=
  [⟨mkRaw 1 "A" "B" (some ['2', '–', '1']), some 2, some 1, some 'H'⟩]

/-- The first of six same-day A-vs-B matches. -/
def c9row0 : RawRow := mkRaw 1 "A" "B" (some ['1', '–', '0'])

/-- Six A-vs-B matches all played on the same date, with six distinct home
scores so each match's records are recognisable. -/
def c9rows : List RawRow :=
  [ c9row0
  , mkRaw 1 "A" "B" (some ['2', '–', '0'])
  , mkRaw 1 "A" "B" (some ['3', '–', '0'])
  , mkRaw 1 "A" "B" (some ['4', '–', '0'])
  , mkRaw 1 "A" "B" (some ['5', '–', '0'])
  , mkRaw 1 "A" "B" (some ['6', '–', '0'])
  ]

/-- Five A-vs-B matches on distinct dates followed by two more on one
shared sixth date: a same-day doubleheader for both teams, each with five
prior matches. -/
def c10rows : List RawRow :=
  [ mkRaw 1 "A" "B" (some ['2', '–', '1'])
  , mkRaw 2 "A" "B" (some ['0', '–', '0'])
  , mkRaw 3 "A" "B" (some ['1', '–', '3'])
  , mkRaw 4 "A" "B" (some ['1', '–', '0'])
  , mkRaw 5 "A" "B" (some ['2', '–', '2'])
  , mkRaw 6 "A" "B" (some ['3', '–', '1'])
  , mkRaw 6 "A" "B" (some ['0', '–', '1'])
  ]

/-- A scored 2–1 home win on date 1, as `cleanPhase` derives it. -/
def c4m1 : ScoredRow :=
  ⟨mkRaw 1 "A" "B" (some ['2', '–', '1']), some 2, some 1, some 'H'⟩

/-- A scored 0–0 draw on date 2, as `cleanPhase` derives it. -/
def c4m2 : ScoredRow :=
  ⟨mkRaw 2 "A" "B" (some ['0', '–', '0']), some 0, some 0, some 'D'⟩

/-- The two scored matches `c4m1`, `c4m2`. -/
def c4scoredW : List ScoredRow := [c4m1, c4m2]

/-- The joined feature row of `c4m2` for window size 1 (row 1 of the
merge output): each side's rolling form is its single date-1 record. -/
def c4fW : FinalRow :=
  ((joinedRows 1 c4scoredW).get? 1).getD ⟨c4m2, none, none, none, none, none, none⟩

/-! Claim theorems. -/

/-- C2 (code bug): the specification requires a score text that does not
parse into two numeric tokens to be excluded from processing with the run
continuing; the code instead raises from the numeric conversion, aborting
the whole run on the non-numeric score text `abc`. -/
theorem C2_run_aborts_on_malformed_score :
    process_data c2rows = Except.error () := rfl

/-- C3 (counterexample): for the 2–1 home win the two derived team records
earn 3 and 0 points, so their sum is 3, not 2 as the claim states. -/
theorem C3_counterexample :
    parseRow c3raw = Except.ok c3scored ∧
    (homeRec c3scored).points + (awayRec c3scored).points = 3 ∧
    (homeRec c3scored).points + (awayRec c3scored).points ≠ 2 := by
  refine ⟨rfl, rfl, by decide⟩

/-- C3 (amended): for every ScoredMatch the points of the two derived
TeamMatchRecords sum to 2 when the match is a draw and to 3 when it is
decisive. -/
theorem C3_points_sum (raw : RawRow) (a b : Nat) :
    (homeRec ⟨raw, some a, some b, deriveResult (some a) (some b)⟩).points +
      (awayRec ⟨raw, some a, some b, deriveResult (some a) (some b)⟩).points =
      if a = b then 2 else 3 := by
  rcases Nat.lt_trichotomy a b with h | h | h
  · simp [homeRec, awayRec, selectPoints, deriveResult, Nat.lt_asymm h,
      Nat.ne_of_lt h, h]
  · simp [homeRec, awayRec, selectPoints, deriveResult, h, Nat.lt_irrefl]
  · simp [homeRec, awayRec, selectPoints, deriveResult, h, Nat.lt_asymm h,
      Nat.ne_of_gt h]

/-- C5 (confirmed): a score cell that splits on the en dash into exactly
two numeric tokens `a` and `b` yields `home_goals = a`, `away_goals = b`,
and the derived result is `'H'` iff `a > b`, `'A'` iff `a < b`, and `'D'`
iff `a = b` — exactly one result per match. -/
theorem C5_score_parse (r : RawRow) (s t1 t2 : List Char) (a b : Nat)
    (hs : r.score = some s)
    (hsp : splitOnChar dashChar s = [t1, t2])
    (ha : tokToNat? t1 = some a) (hb : tokToNat? t2 = some b) :
    parseRow r = Except.ok ⟨r, some a, some b, deriveResult (some a) (some b)⟩ ∧
    (deriveResult (some a) (some b) = some 'H' ↔ b < a) ∧
    (deriveResult (some a) (some b) = some 'A' ↔ a < b) ∧
    (deriveResult (some a) (some b) = some 'D' ↔ a = b) := by
  refine ⟨?_, ?_, ?_, ?_⟩
  · simp only [parseRow, hs, hsp, Option.getD_some, List.get?_cons_zero,
      List.get?_cons_succ, toNumericTok, ha, hb]
    rfl
  all_goals
    simp only [deriveResult]
    split_ifs <;> simp_all <;> omega

/-- C5 witness at the concrete score `2–1`. -/
theorem C5_score_parse_witness :
    parseRow c5raw =
      Except.ok ⟨c5raw, some 2, some 1, deriveResult (some 2) (some 1)⟩ ∧
    (deriveResult (some 2) (some 1) = some 'H' ↔ 1 < 2) ∧
    (deriveResult (some 2) (some 1) = some 'A' ↔ 2 < 1) ∧
    (deriveResult (some 2) (some 1) = some 'D' ↔ 2 = 1) :=
  C5_score_parse c5raw ['2', '–', '1'] ['2'] ['1'] 2 1 rfl (by decide)
    (by decide) (by decide)

/-- C6 (confirmed): every record of `team_stats_df` earns 3 points if it
is a home record of a home win or an away record of an away win, 1 point
on a draw, and 0 otherwise. -/
theorem C6_points_rule (scored : List ScoredRow) (r : TeamRec)
    (hr : r ∈ teamStats scored) :
    r.points =
      if (r.location = 'H' ∧ r.result = some 'H') ∨
          (r.location = 'A' ∧ r.result = some 'A') then 3
      else if r.result = some 'D' then 1
      else 0 := by
  have hmem : r ∈ scored.map homeRec ++ scored.map awayRec :=
    ((List.perm_insertionSort dateLE _).mem_iff).1 hr
  rcases List.mem_append.1 hmem with h | h <;>
    rcases List.mem_map.1 h with ⟨m, _, rfl⟩ <;>
    simp [homeRec, awayRec, selectPoints]

/-- C6 witness: the home record of a concrete 2–1 home win. -/
theorem C6_points_rule_witness : (homeRec c6scored).points = 3 := by
  have h := C6_points_rule [c6scored] (homeRec c6scored) (by decide)
  simpa using h

/-- C7 (confirmed): after discarding rows without a parsable score, the
team-view expansion produces exactly twice as many team records as there
are scored matches. -/
theorem C7_team_view_doubles (raws : List RawRow) (scored : List ScoredRow)
    (h : cleanPhase raws = Except.ok scored) :
    (teamStats scored).length = 2 * scored.length := by
  have hperm :=
    (List.perm_insertionSort dateLE
      (scored.map homeRec ++ scored.map awayRec)).length_eq
  unfold teamStats sortByDate
  rw [hperm, List.length_append, List.length_map, List.length_map]
  omega

/-- C7 witness at a two-row input with one unplayed fixture. -/
theorem C7_team_view_doubles_witness :
    (teamStats c7scored).length = 2 * c7scored.length :=
  C7_team_view_doubles c7raws c7scored rfl

/-- C10 (confirmed): on `c10rows`, where both teams play two matches on
the shared sixth date with five prior matches each, the `(date, team)`
re-join matches each of the two same-day matches against both same-day
records of each side, so the final table has 8 rows although only 2
distinct matches contribute to it. -/
theorem C10_join_duplicates :
    ((process_data c10rows).toOption.getD []).length = 8 ∧
    ((((process_data c10rows).toOption.getD []).map fun f =>
        f.row.raw).dedup).length = 2 ∧
    ((((process_data c10rows).toOption.getD []).map fun f =>
        f.row.raw).dedup).length <
      ((process_data c10rows).toOption.getD []).length := by
  refine ⟨by decide, by decide, by decide⟩

/-- C1 (counterexample): with window size 5 and a team partition of two
records, the second record has exactly one prior record, yet its rolling
columns are absent rather than the mean of that single prior record
(which would be `avg_points = 3`). -/
theorem C1_counterexample :
    ((calculate_rolling_features 5 [c1rec1, c1rec2]).map fun x =>
        x.avg_points) = [none, none] ∧
    ((calculate_rolling_features 5 [c1rec1, c1rec2]).map fun x =>
        x.avg_points) ≠ [none, some 3] := by
  refine ⟨by decide, by decide⟩

/-- C4 (counterexample): on `c4rows` the sixth match has both rolling
forms present, yet the final output is empty because the sixth row's
extra passthrough column is missing; restoring that single extra cell
(`c4rowsB`) makes the row survive. The final filter therefore does not
keep every row whose two rolling forms are present, and extra columns do
affect which rows are kept. -/
theorem C4_counterexample :
    process_data c4rows = Except.ok [] ∧
    ((process_data c4rowsB).toOption.getD []).length = 1 := by
  refine ⟨rfl, by decide⟩

/-- C9 (counterexample): on `c9rows`, six same-day matches, the first
chronological record of team A (the record of match `c9row0`, with
`goals_scored = 1`) heads A's sorted partition, yet a FeatureRow of match
`c9row0` appears in the final output: the `(date, team)` join attaches the
same-day sixth record's defined rolling form to the first match. -/
theorem C9_counterexample :
    ((process_data c9rows).toOption.getD []).length = 6 ∧
    c9row0 ∈ (((process_data c9rows).toOption.getD []).map fun f =>
      f.row.raw) ∧
    (((sortByDate (((teamStats ((cleanPhase c9rows).toOption.getD [])).filter
        fun r => r.team == "A"))).head?).map fun r => r.goals_scored) =
      some (some 1) := by
  refine ⟨by decide, by decide, by decide⟩

/-! Lemmas on the rolling computation. -/

/-- Row `j` of `rollFrom` pairs row `j` of the sorted group with the
rolling means at absolute index `i + j`. -/
theorem rollFrom_get? (gs gc pts : List (Option ℚ)) (N : Nat) :
    ∀ (i j : Nat) (l : List TeamRec),
      (rollFrom gs gc pts N i l).get? j =
        (l.get? j).map fun r =>
          ⟨r, rollingMeanAt gs N (i + j), rollingMeanAt gc N (i + j),
            rollingMeanAt pts N (i + j)⟩ := by
  intro i j l
  induction l generalizing i j with
  | nil => simp [rollFrom]
  | cons r rs ih =>
    cases j with
    | zero => simp [rollFrom]
    | succ j =>
      simp only [rollFrom, List.get?_cons_succ]
      rw [ih (i + 1) j, show i + 1 + j = i + (j + 1) from by omega]

/-- Row `j` of `calculate_rolling_features` explicitly. -/
theorem calcRolling_get? (N : Nat) (g : List TeamRec) (j : Nat) :
    (calculate_rolling_features N g).get? j =
      ((sortByDate g).get? j).map fun r =>
        ⟨r,
          rollingMeanAt
            ((sortByDate g).map fun x => x.goals_scored.map fun n => (n : ℚ))
            N j,
          rollingMeanAt
            ((sortByDate g).map fun x => x.goals_conceded.map fun n => (n : ℚ))
            N j,
          rollingMeanAt
            ((sortByDate g).map fun x => (some (x.points : ℚ) : Option ℚ))
            N j⟩ := by
  simpa [calculate_rolling_features] using
    rollFrom_get? _ _ _ N 0 j (sortByDate g)

/-- The rolling mean at row `i` only looks at the first `i` rows. -/
theorem rollingMeanAt_congr (v1 v2 : List (Option ℚ)) (N i : Nat)
    (h : v1.take i = v2.take i) :
    rollingMeanAt v1 N i = rollingMeanAt v2 N i := by
  simp only [rollingMeanAt, h]

/-- With fewer than `N` prior rows the rolling mean is NaN
(`min_periods = N` cannot be met). -/
theorem rollingMeanAt_eq_none (vals : List (Option ℚ)) (N i : Nat)
    (h : i < N) : rollingMeanAt vals N i = none := by
  simp only [rollingMeanAt]
  have h1 : (((vals.take i).drop (i - N)).filterMap id).length ≤ i := by
    calc (((vals.take i).drop (i - N)).filterMap id).length
        ≤ ((vals.take i).drop (i - N)).length :=
          List.length_filterMap_le _ _
      _ ≤ (vals.take i).length := by rw [List.length_drop]; omega
      _ ≤ i := by rw [List.length_take]; omega
  rw [if_neg (by omega)]

/-- A defined rolling mean needs at least `N` prior rows. -/
theorem rollingMeanAt_isSome_le (vals : List (Option ℚ)) (N i : Nat)
    (h : (rollingMeanAt vals N i).isSome) : N ≤ i := by
  by_contra hc
  rw [rollingMeanAt_eq_none vals N i (by omega)] at h
  simp at h

/-- Mapping a total column extractor commutes with dropping NaN cells. -/
theorem filterMap_map_all_some (f : TeamRec → Option ℚ) (f' : TeamRec → ℚ) :
    ∀ (l : List TeamRec), (∀ r ∈ l, f r = some (f' r)) →
      (l.map f).filterMap id = l.map f' := by
  intro l h
  induction l with
  | nil => rfl
  | cons a l ih =>
    simp only [List.map_cons, List.filterMap_cons, h a (by simp), id_eq]
    rw [ih fun r hr => h r (by simp [hr])]

/-- With at least `N` prior rows all carrying a value, the rolling mean is
the mean of the `N`-row look-behind slice. -/
theorem rollingMeanAt_full (s : List TeamRec) (f : TeamRec → Option ℚ)
    (f' : TeamRec → ℚ) (N i : Nat) (hN : 0 < N) (hiN : N ≤ i)
    (hi : i < s.length) (hf : ∀ r ∈ s, f r = some (f' r)) :
    rollingMeanAt (s.map f) N i =
      some (meanQ (((s.take i).drop (i - N)).map f')) := by
  have hmap : ((s.map f).take i).drop (i - N) =
      ((s.take i).drop (i - N)).map f := by
    rw [← List.map_take, ← List.map_drop]
  have hsub : ∀ r ∈ (s.take i).drop (i - N), r ∈ s := fun r hr =>
    List.mem_of_mem_take (List.mem_of_mem_drop hr)
  have hobs : ((((s.take i).drop (i - N)).map f).filterMap id) =
      ((s.take i).drop (i - N)).map f' :=
    filterMap_map_all_some f f' _ fun r hr => hf r (hsub r hr)
  have hslen : ((s.take i).drop (i - N)).length = N := by
    rw [List.length_drop, List.length_take]
    omega
  simp only [rollingMeanAt, hmap, hobs]
  rw [if_pos (by rw [List.length_map, hslen])]
  simp [meanQ, List.length_map, hslen]

/-- C1 (amended): for a team partition with all goal values present,
window size `N ≥ 1` and 1-indexed position `k`, the rolling-form fields
are absent whenever fewer than `N` prior records exist (all positions
`k ≤ N`, not only `k = 1`), and for `k > N` they equal the arithmetic mean
of goals scored, goals conceded and points over the `N` prior positions
`k-N .. k-1` of the chronologically sorted partition. -/
theorem C1_rolling_window (N : Nat) (hN : 0 < N) (g : List TeamRec)
    (k : Nat) (hk1 : 1 ≤ k) (hk : k ≤ g.length)
    (hall : ∀ r ∈ g, r.goals_scored.isSome ∧ r.goals_conceded.isSome) :
    ((calculate_rolling_features N g).get? (k - 1)).map (fun x =>
        (x.avg_goals_scored, x.avg_goals_conceded, x.avg_points)) =
      some (if k ≤ N then (none, none, none)
        else
          (some (meanQ ((windowSlice (sortByDate g) N k).map fun r =>
              ((r.goals_scored.getD 0 : Nat) : ℚ))),
           some (meanQ ((windowSlice (sortByDate g) N k).map fun r =>
              ((r.goals_conceded.getD 0 : Nat) : ℚ))),
           some (meanQ ((windowSlice (sortByDate g) N k).map fun r =>
              ((r.points : Nat) : ℚ))))) := by
  have hlen : (sortByDate g).length = g.length :=
    (List.perm_insertionSort dateLE g).length_eq
  have hidx : k - 1 < (sortByDate g).length := by omega
  obtain ⟨r, hr⟩ : ∃ r, (sortByDate g).get? (k - 1) = some r := by
    cases hg : (sortByDate g).get? (k - 1) with
    | none => rw [List.get?_eq_none] at hg; omega
    | some r => exact ⟨r, rfl⟩
  have hallS : ∀ r ∈ sortByDate g,
      r.goals_scored.isSome ∧ r.goals_conceded.isSome := fun r hr =>
    hall r ((List.perm_insertionSort dateLE g).mem_iff.1 hr)
  rw [calcRolling_get? N g (k - 1), hr, Option.map_some']
  by_cases hkN : k ≤ N
  · rw [if_pos hkN]
    rw [rollingMeanAt_eq_none _ _ _ (by omega),
      rollingMeanAt_eq_none _ _ _ (by omega),
      rollingMeanAt_eq_none _ _ _ (by omega)]
    rfl
  · rw [if_neg hkN]
    have h1 : rollingMeanAt
        ((sortByDate g).map fun x => x.goals_scored.map fun n => (n : ℚ))
        N (k - 1) =
        some (meanQ ((windowSlice (sortByDate g) N k).map fun r =>
          ((r.goals_scored.getD 0 : Nat) : ℚ))) := by
      refine rollingMeanAt_full _ _ _ N (k - 1) hN (by omega) (by omega)
        fun x hx => ?_
      obtain ⟨v, hv⟩ := Option.isSome_iff_exists.1 (hallS x hx).1
      simp [hv]
    have h2 : rollingMeanAt
        ((sortByDate g).map fun x => x.goals_conceded.map fun n => (n : ℚ))
        N (k - 1) =
        some (meanQ ((windowSlice (sortByDate g) N k).map fun r =>
          ((r.goals_conceded.getD 0 : Nat) : ℚ))) := by
      refine rollingMeanAt_full _ _ _ N (k - 1) hN (by omega) (by omega)
        fun x hx => ?_
      obtain ⟨v, hv⟩ := Option.isSome_iff_exists.1 (hallS x hx).2
      simp [hv]
    have h3 : rollingMeanAt
        ((sortByDate g).map fun x => (some (x.points : ℚ) : Option ℚ))
        N (k - 1) =
        some (meanQ ((windowSlice (sortByDate g) N k).map fun r =>
          ((r.points : Nat) : ℚ))) := by
      refine rollingMeanAt_full _ _ _ N (k - 1) hN (by omega) (by omega)
        fun x hx => rfl
    rw [h1, h2, h3]
    rfl

/-- C1 amended witness: window size 1, position 2 of a two-record
partition. -/
theorem C1_rolling_window_witness :
    ((calculate_rolling_features 1 [c1rec1, c1rec2]).get? (2 - 1)).map
        (fun x => (x.avg_goals_scored, x.avg_goals_conceded, x.avg_points)) =
      some (if 2 ≤ 1 then (none, none, none)
        else
          (some (meanQ ((windowSlice (sortByDate [c1rec1, c1rec2]) 1 2).map
              fun r => ((r.goals_scored.getD 0 : Nat) : ℚ))),
           some (meanQ ((windowSlice (sortByDate [c1rec1, c1rec2]) 1 2).map
              fun r => ((r.goals_conceded.getD 0 : Nat) : ℚ))),
           some (meanQ ((windowSlice (sortByDate [c1rec1, c1rec2]) 1 2).map
              fun r => ((r.points : Nat) : ℚ))))) :=
  C1_rolling_window 1 (by decide) [c1rec1, c1rec2] 2 (by decide) (by decide)
    (by decide)

/-! Lemmas on the stable chronological sort. -/

/-- Filtering commutes with ordered insertion into a sorted list. -/
theorem filter_orderedInsert (p : TeamRec → Bool) (a : TeamRec) :
    ∀ l : List TeamRec, l.Sorted dateLE →
      (List.orderedInsert dateLE a l).filter p =
        if p a then List.orderedInsert dateLE a (l.filter p)
        else l.filter p := by
  intro l hs
  induction l with
  | nil =>
    cases hpa : p a <;> simp [List.filter_cons, hpa]
  | cons b l ih =>
    have hsl : l.Sorted dateLE := (List.sorted_cons.1 hs).2
    have hbl : ∀ x ∈ l, dateLE b x := (List.sorted_cons.1 hs).1
    by_cases hab : dateLE a b
    · rw [List.orderedInsert_of_le dateLE l hab]
      by_cases hpa : p a
      · rw [if_pos hpa, List.filter_cons_of_pos hpa]
        cases hX : (b :: l).filter p with
        | nil => simp
        | cons c cs =>
          have hc' : c ∈ b :: l := by
            refine List.mem_of_mem_filter (p := p) ?_
            rw [hX]
            exact List.mem_cons_self c cs
          have hac : dateLE a c := by
            rcases List.mem_cons.1 hc' with rfl | hcl
            · exact hab
            · exact Nat.le_trans hab (hbl c hcl)
          rw [List.orderedInsert_of_le dateLE cs hac]
      · rw [if_neg hpa, List.filter_cons_of_neg hpa]
    · have hstep : List.orderedInsert dateLE a (b :: l) =
          b :: List.orderedInsert dateLE a l := by
        simp [hab]
      rw [hstep]
      by_cases hpb : p b
      · rw [List.filter_cons_of_pos hpb, ih hsl]
        by_cases hpa : p a
        · rw [if_pos hpa, if_pos hpa, List.filter_cons_of_pos hpb]
          simp [hab]
        · rw [if_neg hpa, if_neg hpa, List.filter_cons_of_pos hpb]
      · rw [List.filter_cons_of_neg hpb, ih hsl]
        by_cases hpa : p a
        · rw [if_pos hpa, if_pos hpa, List.filter_cons_of_neg hpb]
        · rw [if_neg hpa, if_neg hpa, List.filter_cons_of_neg hpb]

/-- Filtering commutes with the stable chronological sort. -/
theorem filter_sortByDate (p : TeamRec → Bool) :
    ∀ l : List TeamRec, (sortByDate l).filter p = sortByDate (l.filter p) := by
  intro l
  induction l with
  | nil => rfl
  | cons a l ih =>
    show (List.orderedInsert dateLE a (List.insertionSort dateLE l)).filter p
        = sortByDate ((a :: l).filter p)
    rw [filter_orderedInsert p a _ (List.sorted_insertionSort dateLE l)]
    by_cases hpa : p a
    · rw [if_pos hpa, List.filter_cons_of_pos hpa]
      show List.orderedInsert dateLE a ((List.insertionSort dateLE l).filter p)
          = List.orderedInsert dateLE a (List.insertionSort dateLE (l.filter p))
      rw [show (List.insertionSort dateLE l).filter p =
        sortByDate (l.filter p) from ih]
      rfl
    · rw [if_neg hpa, List.filter_cons_of_neg hpa]
      exact ih

/-- C8 (confirmed): first, the rolling-form fields of a team's k-th
chronological record are a function of positions `1 .. k-1` of the sorted
partition alone: two partitions agreeing on their first `k-1` sorted
records get equal rolling values at position `k`, whatever their later
records are. Second, a team's partition of `team_stats_df` depends only
on the matches that team participates in, so other teams' matches cannot
change it. -/
theorem C8_lookback_only :
    (∀ (N k : Nat) (g1 g2 : List TeamRec),
        (sortByDate g1).take (k - 1) = (sortByDate g2).take (k - 1) →
        1 ≤ k → k ≤ g1.length → k ≤ g2.length →
        ((calculate_rolling_features N g1).get? (k - 1)).map (fun x =>
            (x.avg_goals_scored, x.avg_goals_conceded, x.avg_points)) =
          ((calculate_rolling_features N g2).get? (k - 1)).map (fun x =>
            (x.avg_goals_scored, x.avg_goals_conceded, x.avg_points))) ∧
    (∀ (t : String) (s1 s2 : List ScoredRow),
        s1.filter (involvesB t) = s2.filter (involvesB t) →
        (teamStats s1).filter (fun r => r.team == t) =
          (teamStats s2).filter (fun r => r.team == t)) := by
  constructor
  · intro N k g1 g2 hagree hk1 h1 h2
    have hl1 : (sortByDate g1).length = g1.length :=
      (List.perm_insertionSort dateLE g1).length_eq
    have hl2 : (sortByDate g2).length = g2.length :=
      (List.perm_insertionSort dateLE g2).length_eq
    obtain ⟨r1, hr1⟩ : ∃ r, (sortByDate g1).get? (k - 1) = some r := by
      cases hg : (sortByDate g1).get? (k - 1) with
      | none => rw [List.get?_eq_none] at hg; omega
      | some r => exact ⟨r, rfl⟩
    obtain ⟨r2, hr2⟩ : ∃ r, (sortByDate g2).get? (k - 1) = some r := by
      cases hg : (sortByDate g2).get? (k - 1) with
      | none => rw [List.get?_eq_none] at hg; omega
      | some r => exact ⟨r, rfl⟩
    have ht : ∀ f : TeamRec → Option ℚ,
        ((sortByDate g1).map f).take (k - 1) =
          ((sortByDate g2).map f).take (k - 1) := by
      intro f
      rw [← List.map_take, ← List.map_take, hagree]
    rw [calcRolling_get? N g1 (k - 1), calcRolling_get? N g2 (k - 1), hr1,
      hr2, Option.map_some', Option.map_some']
    have e1 := rollingMeanAt_congr _ _ N (k - 1)
      (ht fun x => x.goals_scored.map fun n => (n : ℚ))
    have e2 := rollingMeanAt_congr _ _ N (k - 1)
      (ht fun x => x.goals_conceded.map fun n => (n : ℚ))
    have e3 := rollingMeanAt_congr _ _ N (k - 1)
      (ht fun x => (some (x.points : ℚ) : Option ℚ))
    simp only [e1, e2, e3]
    rfl
  · intro t s1 s2 hfil
    have hh : ∀ s : List ScoredRow,
        (s.map homeRec).filter (fun r => r.team == t) =
          ((s.filter (involvesB t)).filter
            (fun m => m.raw.home_team == t)).map homeRec := by
      intro s
      rw [List.filter_map, List.filter_filter]
      congr 1
      apply List.filter_congr
      intro m _
      show ((homeRec m).team == t) =
        ((m.raw.home_team == t) && involvesB t m)
      cases h1 : (m.raw.home_team == t) <;>
        simp [homeRec, involvesB, h1]
    have ha : ∀ s : List ScoredRow,
        (s.map awayRec).filter (fun r => r.team == t) =
          ((s.filter (involvesB t)).filter
            (fun m => m.raw.away_team == t)).map awayRec := by
      intro s
      rw [List.filter_map, List.filter_filter]
      congr 1
      apply List.filter_congr
      intro m _
      show ((awayRec m).team == t) =
        ((m.raw.away_team == t) && involvesB t m)
      cases h1 : (m.raw.away_team == t) <;>
        simp [awayRec, involvesB, h1]
    show (sortByDate (s1.map homeRec ++ s1.map awayRec)).filter
        (fun r => r.team == t) = (sortByDate
          (s2.map homeRec ++ s2.map awayRec)).filter (fun r => r.team == t)
    rw [filter_sortByDate, filter_sortByDate, List.filter_append,
      List.filter_append, hh s1, hh s2, ha s1, ha s2, hfil]

/-- C8 witness: two partitions sharing their first record but differing
in the second. -/
theorem C8_lookback_only_witness :
    ((calculate_rolling_features 5 [c1rec1, c1rec2]).get? (2 - 1)).map
        (fun x => (x.avg_goals_scored, x.avg_goals_conceded, x.avg_points)) =
      ((calculate_rolling_features 5 [c1rec1, c8rec]).get? (2 - 1)).map
        (fun x => (x.avg_goals_scored, x.avg_goals_conceded, x.avg_points)) :=
  C8_lookback_only.1 5 2 [c1rec1, c1rec2] [c1rec1, c8rec] (by decide)
    (by decide) (by decide) (by decide)

/-! Lemmas for the re-join phase. -/

/-- In a chronologically sorted list, all positions up to `i` carry dates
at most the date of the record at position `i`, so at least `i + 1`
records date no later than it. -/
theorem countP_le_date (s : List TeamRec) (hs : s.Sorted dateLE) (i : Nat)
    (r : TeamRec) (hr : s.get? i = some r) :
    i + 1 ≤ s.countP fun x => decide (x.date ≤ r.date) := by
  obtain ⟨hi, hget⟩ := List.get?_eq_some.1 hr
  have hall : ∀ x ∈ s.take (i + 1), decide (x.date ≤ r.date) = true := by
    intro x hx
    obtain ⟨j, hm, hjx⟩ := List.mem_take_iff_getElem.1 hx
    have hjs : j < s.length := lt_of_lt_of_le hm (min_le_right _ _)
    have hj1 : j < i + 1 := lt_of_lt_of_le hm (min_le_left _ _)
    have hx' : s.get ⟨j, hjs⟩ = x := by
      rw [List.get_eq_getElem]
      exact hjx
    rcases Nat.lt_or_ge j i with hji | hji
    · have hrel : dateLE (s.get ⟨j, hjs⟩) (s.get ⟨i, hi⟩) :=
        hs.rel_get_of_lt (a := ⟨j, hjs⟩) (b := ⟨i, hi⟩) hji
      rw [hx', hget] at hrel
      exact decide_eq_true hrel
    · have hji' : j = i := by omega
      subst hji'
      have hxr : x = r := by rw [← hx', hget]
      subst hxr
      exact decide_eq_true (Nat.le_refl _)
  calc i + 1 = (s.take (i + 1)).length := by rw [List.length_take]; omega
    _ = (s.take (i + 1)).countP fun x => decide (x.date ≤ r.date) :=
        (List.countP_eq_length.2 hall).symm
    _ ≤ s.countP fun x => decide (x.date ≤ r.date) := by
        conv_rhs => rw [← List.take_append_drop (i + 1) s]
        rw [List.countP_append]
        exact Nat.le_add_right _ _

/-- Counts of two per-row disjoint predicates sum to at most the count of
any common weakening. -/
theorem countP_add_le (p q rq : ScoredRow → Bool) :
    ∀ l : List ScoredRow,
      (∀ x ∈ l, ¬(p x = true ∧ q x = true)) →
      (∀ x ∈ l, p x = true → rq x = true) →
      (∀ x ∈ l, q x = true → rq x = true) →
      l.countP p + l.countP q ≤ l.countP rq := by
  intro l
  induction l with
  | nil => intro _ _ _; simp
  | cons a l ih =>
    intro hpq hp hq
    have ih' := ih (fun x hx => hpq x (by simp [hx]))
      (fun x hx => hp x (by simp [hx])) (fun x hx => hq x (by simp [hx]))
    have h1 := hpq a (by simp)
    have h2 := hp a (by simp)
    have h3 := hq a (by simp)
    rw [List.countP_cons, List.countP_cons, List.countP_cons]
    cases hpa : p a <;> cases hqa : q a <;> simp_all <;> omega

/-- Every row of `calculate_rolling_features` is a row of the sorted
group paired with the rolling means at its position. -/
theorem mem_calcRolling (N : Nat) (g : List TeamRec) (x : RolledRec)
    (hx : x ∈ calculate_rolling_features N g) :
    ∃ i, (sortByDate g).get? i = some x.trec ∧
      x.avg_points = rollingMeanAt
        ((sortByDate g).map fun r => (some (r.points : ℚ) : Option ℚ)) N i := by
  obtain ⟨i, hi⟩ := List.mem_iff_get?.1 hx
  rw [calcRolling_get?] at hi
  cases hg : (sortByDate g).get? i with
  | none => rw [hg] at hi; simp at hi
  | some r =>
    rw [hg, Option.map_some'] at hi
    have hix := Option.some.inj hi
    refine ⟨i, ?_, ?_⟩
    · rw [hg, ← hix]
    · rw [← hix]

/-- Every processed record belongs to the rolling output of some team's
partition. -/
theorem mem_processedRecs (N : Nat) (scored : List ScoredRow) (x : RolledRec)
    (hx : x ∈ processedRecs N scored) :
    ∃ t', x ∈ calculate_rolling_features N
      ((teamStats scored).filter fun r => r.team == t') := by
  simp only [processedRecs, List.mem_flatMap] at hx
  obtain ⟨t', _, h⟩ := hx
  exact ⟨t', h⟩

/-- Decomposition of a row of the double merge: it pairs a scored match
with a home-located and an away-located processed record matching the
`(date, team)` keys of the two sides. -/
theorem mem_joinedRows_decomp (N : Nat) (scored : List ScoredRow)
    (f : FinalRow) (hf : f ∈ joinedRows N scored) :
    ∃ m ∈ scored, ∃ hr ∈ processedRecs N scored,
      ∃ ar ∈ processedRecs N scored,
        hr.trec.location = 'H' ∧ ar.trec.location = 'A' ∧
        hr.trec.date = m.raw.date ∧ hr.trec.team = m.raw.home_team ∧
        ar.trec.date = m.raw.date ∧ ar.trec.team = m.raw.away_team ∧
        f = mkFinal m hr ar := by
  simp only [joinedRows, List.mem_flatMap, List.mem_map, List.mem_filter,
    homeKeyB, awayKeyB, Bool.and_eq_true, beq_iff_eq] at hf
  obtain ⟨m, hm, hr, ⟨⟨⟨hrp, hrl⟩, hrd, hrt⟩, ar, ⟨⟨harp, harl⟩, hard, hart⟩,
    hfe⟩⟩ := hf
  exact ⟨m, hm, hr, hrp, ar, harp, hrl, harl, hrd, hrt, hard, hart, hfe.symm⟩

/-- C4 (amended): the final `dropna` keeps a joined FeatureRow if and only
if every nullable column is present — not only the six rolling-form
columns but also the goal, result and score columns and every extra
passthrough cell, so a missing value in an extra column also drops the
row; retained rows carry their original ScoredMatch (and hence their
extra columns) untouched. -/
theorem C4_final_filter (N : Nat) (scored : List ScoredRow) (f : FinalRow)
    (hf : f ∈ joinedRows N scored) :
    (f ∈ dropna (joinedRows N scored) ↔
      (f.home_avg_goals_scored.isSome ∧ f.home_avg_goals_conceded.isSome ∧
        f.home_avg_points.isSome ∧ f.away_avg_goals_scored.isSome ∧
        f.away_avg_goals_conceded.isSome ∧ f.away_avg_points.isSome ∧
        f.row.raw.score.isSome ∧ f.row.home_goals.isSome ∧
        f.row.away_goals.isSome ∧ f.row.result.isSome ∧
        ∀ x ∈ f.row.raw.extra, x.isSome)) ∧
    f.row ∈ scored := by
  constructor
  · rw [dropna, List.mem_filter]
    simp only [hf, true_and]
    simp [hasNaN, not_or, Option.isSome_iff_ne_none]
    tauto
  · obtain ⟨m, hm, hr, _, ar, _, _, _, _, _, _, _, hfe⟩ :=
      mem_joinedRows_decomp N scored f hf
    rw [hfe]
    exact hm

/-- C4 witness: the joined feature row of the second match of
`c4scoredW` under window size 1. -/
theorem C4_final_filter_witness :
    (c4fW ∈ dropna (joinedRows 1 c4scoredW) ↔
      (c4fW.home_avg_goals_scored.isSome ∧
        c4fW.home_avg_goals_conceded.isSome ∧
        c4fW.home_avg_points.isSome ∧ c4fW.away_avg_goals_scored.isSome ∧
        c4fW.away_avg_goals_conceded.isSome ∧ c4fW.away_avg_points.isSome ∧
        c4fW.row.raw.score.isSome ∧ c4fW.row.home_goals.isSome ∧
        c4fW.row.away_goals.isSome ∧ c4fW.row.result.isSome ∧
        ∀ x ∈ c4fW.row.raw.extra, x.isSome)) ∧
    c4fW.row ∈ c4scoredW :=
  C4_final_filter 1 c4scoredW c4fW
    (List.mem_iff_get?.2 ⟨1, rfl⟩)

/-- C9 (amended): the first chronological record of every team partition
has absent rolling-form values; and no FeatureRow whose home or away team
is at its strictly first chronological match (one whose date is matched
or preceded by no other match of that team, teams being distinct within
each match) appears in the final output. Ties broken only by insertion
order — a team whose first match shares its date with later matches — can
defeat the filter through the ambiguous `(date, team)` join, as the
counterexample shows. -/
theorem C9_amended :
    (∀ (N : Nat) (g : List TeamRec) (r : RolledRec), 0 < N →
        (calculate_rolling_features N g).get? 0 = some r →
        r.avg_goals_scored = none ∧ r.avg_goals_conceded = none ∧
          r.avg_points = none) ∧
    (∀ (raws : List RawRow) (scored : List ScoredRow) (out : List FinalRow)
        (f : FinalRow) (t : String),
        cleanPhase raws = Except.ok scored →
        (∀ m ∈ scored, m.raw.home_team ≠ m.raw.away_team) →
        process_data raws = Except.ok out → f ∈ out →
        (t = f.row.raw.home_team ∨ t = f.row.raw.away_team) →
        ¬ strictFirstMatch scored t f.row) := by
  constructor
  · intro N g r hN h0
    rw [calcRolling_get?] at h0
    cases hg : (sortByDate g).get? 0 with
    | none => rw [hg] at h0; simp at h0
    | some x =>
      rw [hg, Option.map_some'] at h0
      have hx := Option.some.inj h0
      refine ⟨?_, ?_, ?_⟩ <;> rw [← hx] <;>
        exact rollingMeanAt_eq_none _ N 0 hN
  · intro raws scored out f t hsc hdis hout hf ht hsf
    have hout2 : (Except.ok (dropna (joinedRows 5 scored)) :
        Except Unit (List FinalRow)) = Except.ok out := by
      rw [← hout, process_data, hsc]
      rfl
    have hout3 : out = dropna (joinedRows 5 scored) :=
      (Except.ok.inj hout2).symm
    rw [hout3, dropna, List.mem_filter] at hf
    obtain ⟨hfj, hfb⟩ := hf
    have hnan : hasNaN f = false := by
      cases hn : hasNaN f
      · rfl
      · rw [hn] at hfb
        simp at hfb
    have hhp : f.home_avg_points.isSome = true := by
      cases hh : f.home_avg_points with
      | none => rw [hasNaN] at hnan; simp [hh] at hnan
      | some v => rfl
    have hap : f.away_avg_points.isSome = true := by
      cases hh : f.away_avg_points with
      | none => rw [hasNaN] at hnan; simp [hh] at hnan
      | some v => rfl
    obtain ⟨m, hm, hr, hrP, ar, harP, hrloc, harloc, hrd, hrt, hard, hart,
      hfe⟩ := mem_joinedRows_decomp 5 scored f hfj
    obtain ⟨hmf, hinv, hcount⟩ := hsf
    rw [hfe] at hcount ht hhp hap
    simp only [mkFinal] at hcount ht hhp hap
    have key : ∀ x : RolledRec, x ∈ processedRecs 5 scored →
        x.avg_points.isSome = true → x.trec.team = t →
        x.trec.date = m.raw.date → False := by
      intro x hxP hxS hxT hxD
      obtain ⟨t', hx⟩ := mem_processedRecs 5 scored x hxP
      obtain ⟨i, hgi, havg⟩ := mem_calcRolling 5 _ x hx
      have h5i : (5 : Nat) ≤ i := by
        apply rollingMeanAt_isSome_le
        rw [← havg]
        exact hxS
      have hsorted : (sortByDate ((teamStats scored).filter fun r =>
          r.team == t')).Sorted dateLE :=
        List.sorted_insertionSort dateLE _
      have hcnt1 := countP_le_date _ hsorted i x.trec hgi
      have hperm := List.perm_insertionSort dateLE
        ((teamStats scored).filter fun r => r.team == t')
      have hmemS : x.trec ∈ sortByDate ((teamStats scored).filter fun r =>
          r.team == t') :=
        List.mem_iff_get?.2 ⟨i, hgi⟩
      have hmemP : x.trec ∈ (teamStats scored).filter fun r =>
          r.team == t' := by
        simp only [sortByDate] at hmemS
        exact hperm.mem_iff.1 hmemS
      have ht' : x.trec.team = t' := eq_of_beq (List.mem_filter.1 hmemP).2
      have htt : t' = t := by rw [← ht', hxT]
      simp only [sortByDate] at hcnt1
      rw [hperm.countP_eq, List.countP_filter, htt] at hcnt1
      have hperm2 := List.perm_insertionSort dateLE
        (scored.map homeRec ++ scored.map awayRec)
      have hts : teamStats scored = List.insertionSort dateLE
          (scored.map homeRec ++ scored.map awayRec) := rfl
      rw [hts, hperm2.countP_eq, List.countP_append, List.countP_map,
        List.countP_map, hxD] at hcnt1
      have hb := countP_add_le
        ((fun y => decide (y.date ≤ m.raw.date) && (y.team == t)) ∘ homeRec)
        ((fun y => decide (y.date ≤ m.raw.date) && (y.team == t)) ∘ awayRec)
        (fun y => involvesB t y && decide (y.raw.date ≤ m.raw.date))
        scored ?_ ?_ ?_
      · omega
      · intro y hy hc
        obtain ⟨h1, h2⟩ := hc
        simp only [Function.comp, homeRec, awayRec, Bool.and_eq_true,
          beq_iff_eq, decide_eq_true_eq] at h1 h2
        exact hdis y hy (h1.2.trans h2.2.symm)
      · intro y hy h1
        simp only [Function.comp, homeRec, Bool.and_eq_true, beq_iff_eq,
          decide_eq_true_eq] at h1
        simp only [involvesB, Bool.and_eq_true, Bool.or_eq_true,
          beq_iff_eq, decide_eq_true_eq]
        exact ⟨Or.inl h1.2, h1.1⟩
      · intro y hy h1
        simp only [Function.comp, awayRec, Bool.and_eq_true, beq_iff_eq,
          decide_eq_true_eq] at h1
        simp only [involvesB, Bool.and_eq_true, Bool.or_eq_true,
          beq_iff_eq, decide_eq_true_eq]
        exact ⟨Or.inr h1.2, h1.1⟩
    rcases ht with ht | ht
    · exact key hr hrP hhp (hrt.trans ht.symm) hrd
    · exact key ar harP hap (hart.trans ht.symm) hard

/-- C9 amended witness: the head of a two-record partition has absent
rolling form under the default window size. -/
theorem C9_amended_witness :
    (calculate_rolling_features 5 [c1rec1, c1rec2]).get? 0 =
      some ⟨c1rec1, none, none, none⟩ ∧
    (⟨c1rec1, none, none, none⟩ : RolledRec).avg_goals_scored = none ∧
    (⟨c1rec1, none, none, none⟩ : RolledRec).avg_goals_conceded = none ∧
    (⟨c1rec1, none, none, none⟩ : RolledRec).avg_points = none :=
  ⟨by decide, C9_amended.1 5 [c1rec1, c1rec2] ⟨c1rec1, none, none, none⟩
    (by decide) (by decide)⟩
